import Mathlib

/-!
# Admission webhook: validation policy, mutation policy, review engine, reconciler

A shallow embedding of `pkg/webhook.go` and of `CreateAdminssionConfig` in
`cmd/tls/main.go`.

Conventions of the embedding

* A Go `string` is a Lean `String`: strings are taken to be well-formed UTF-8
  (the strings the handlers see come out of a JSON decoder), for which a byte
  prefix is a code-point prefix.
* A Go `[]byte` is a list of byte values (`Bytes`).
* A Go `map[string]string` is an association list read with `GoMap.get`;
  a `nil` map is `none`.
* A pointer that may be `nil` is an `Option`; dereferencing `nil` is the
  result `Except.error Panic.nilPointerDereference`.
* Functions of other packages (`encoding/json`, the apimachinery decoder,
  `unicode.ToLower`, the control-plane client) are parameters: `Lib`,
  `Client`.
-/

namespace Webhook

/-! ## Data model -/

/-- Byte slices. -/
abbrev Bytes := List Nat

/-- Go `map[string]string`, as an association list. -/
abbrev GoMap := List (String × String)

/-- Read `m[key]` on a possibly nil map: the zero value `""` when the key is absent. -/
def GoMap.get (m : Option GoMap) (key : String) : String :=
  match m with
  | none => ""
  | some entries => (entries.lookup key).getD ""

/-- A run-time panic of the Go program. -/
inductive Panic where
  | nilPointerDereference
  deriving DecidableEq, Repr

/-- Constant `AnnotationMutateKey`. -/
def AnnotationMutateKey : String := "io.ydzs.admission-validat/mutate"

/-- Constant `AnnotationStatusKey`. -/
def AnnotationStatusKey : String := "io.ydzs.admission-validat/status"

/-- The `Value interface{}` of a patch operation: the code stores a string or a string map. -/
inductive PatchValue where
  | str (s : String)
  | map (m : GoMap)
  deriving DecidableEq, Repr

/-- Type `patchOperation`. -/
structure patchOperation where
  Op : String
  Path : String
  Value : PatchValue
  deriving DecidableEq, Repr

/-- Type `WebHookServer`; the `*http.Server` field is not read by the handlers. -/
structure WebHookServer where
  WhiteListPag : List String
  deriving DecidableEq, Repr

/-- `metav1.Status`, the fields the handlers set. -/
structure Status where
  Code : Nat := 0
  Message : String := ""
  deriving DecidableEq, Repr

/-- `runtime.RawExtension`. -/
structure RawExtension where
  Raw : Bytes := []
  deriving DecidableEq, Repr

/-- `admission/v1.AdmissionRequest`, the fields the handlers read (`Kind` is `Kind.Kind`). -/
structure AdmissionRequest where
  UID : String := ""
  Kind : String := ""
  Namespace : String := ""
  Name : String := ""
  Operation : String := ""
  Object : RawExtension := {}
  deriving DecidableEq, Repr

/-- `admission/v1.PatchType`. -/
inductive PatchType where
  | JSONPatch
  deriving DecidableEq, Repr

/-- `admission/v1.AdmissionResponse`; a nil `Result`, `Patch` or `PatchType` is `none`. -/
structure AdmissionResponse where
  UID : String := ""
  Allowed : Bool := false
  Result : Option Status := none
  Patch : Option Bytes := none
  PatchType : Option PatchType := none
  deriving DecidableEq, Repr

/-- `admission/v1.AdmissionReview`. -/
structure AdmissionReview where
  APIVersion : String := ""
  Kind : String := ""
  Request : Option AdmissionRequest := none
  Response : Option AdmissionResponse := none
  deriving DecidableEq, Repr

/-- `corev1.Container`, the fields of interest. -/
structure Container where
  Name : String := ""
  Image : String := ""
  deriving DecidableEq, Repr

/-- `corev1.PodSpec`. -/
structure PodSpec where
  Containers : List Container := []
  deriving DecidableEq, Repr

/-- `corev1.Pod`. -/
structure Pod where
  Spec : PodSpec := {}
  deriving DecidableEq, Repr

/-- `metav1.ObjectMeta`; `Annotations` is `none` for a nil map. -/
structure ObjectMeta where
  Name : String := ""
  Namespace : String := ""
  Annotations : Option GoMap := none
  deriving DecidableEq, Repr

/-- Method `GetAnnotations`. -/
def ObjectMeta.GetAnnotations (m : ObjectMeta) : Option GoMap := m.Annotations

/-- `appsv1.Deployment`; only its metadata is read. -/
structure Deployment where
  ObjectMeta : ObjectMeta := {}
  deriving DecidableEq, Repr

/-- `corev1.Service`; only its metadata is read. -/
structure Service where
  ObjectMeta : ObjectMeta := {}
  deriving DecidableEq, Repr

/-- The library functions the handlers call, taken as parameters.

* `lower` is `unicode.ToLower`, known on ASCII;
* `decode` is `deserializer.Decode(body, nil, &review)`: the review as it was
  filled in, and the error if any;
* `unmarshalPod`, `unmarshalDeployment`, `unmarshalService` are
  `json.Unmarshal` into the three object types;
* `marshalPatch`, `marshalReview` are `json.Marshal`. -/
structure Lib where
  lower : Char → Char
  lower_ascii : ∀ c : Char, c.toNat < 128 → lower c = c.toLower
  decode : Bytes → AdmissionReview × Option String
  unmarshalPod : Bytes → Except String Pod
  unmarshalDeployment : Bytes → Except String Deployment
  unmarshalService : Bytes → Except String Service
  marshalPatch : List patchOperation → Except String Bytes
  marshalReview : AdmissionReview → Except String Bytes

/-! ## String helpers of the Go standard library -/

/-- `strings.HasPrefix(s, p)`. -/
def HasPrefix (s p : String) : Bool := p.data.isPrefixOf s.data

/-- `strings.ToLower`: `unicode.ToLower` applied to every code point. -/
def ToLower (L : Lib) (s : String) : String := String.mk (s.data.map L.lower)

/-- The verb `%v` of `fmt` on a `[]string`: the elements, blank-separated, in brackets. -/
def fmtStrings (l : List String) : String := "[" ++ " ".intercalate l ++ "]"

/-! ## Validation policy -/

/-- Inner loop of `validate` (lines 142-148): the flag `whiteList` after scanning the allow-list. -/
def whiteList (s : WebHookServer) (image : String) : Bool :=
  s.WhiteListPag.foldl (fun flag reg => if HasPrefix image reg then true else flag) false

/-- The denial message of line 153. -/
def untrustedMessage (s : WebHookServer) (image : String) : String :=
  image ++ " image comes from an untrusted validat! Only image from "
    ++ fmtStrings s.WhiteListPag ++ " are allowed"

/-- Outer loop of `validate` (lines 141-156) over the state `(allowed, code, message)`;
the first container that misses the allow-list sets the state and breaks. -/
def validateLoop (s : WebHookServer) :
    List Container → Bool × Nat × String → Bool × Nat × String
  | [], st => st
  | container :: rest, st =>
    if !(whiteList s container.Image) then
      (false, 403, untrustedMessage s container.Image)
    else validateLoop s rest st

/-- Method `WebHookServer.validate`. -/
def validate (L : Lib) (s : WebHookServer) (a : AdmissionReview) :
    Except Panic AdmissionResponse :=
  match a.Request with
  | none => .error .nilPointerDereference
  | some req =>
    match L.unmarshalPod req.Object.Raw with
    | .error err => .ok { Allowed := false, Result := some { Code := 400, Message := err } }
    | .ok pod =>
      let st := validateLoop s pod.Spec.Containers (true, 200, "")
      .ok { Allowed := st.1, Result := some { Code := st.2.1, Message := st.2.2 } }

/-! ## Mutation policy -/

/-- Function `mutationRequired`. -/
def mutationRequired (L : Lib) (m : ObjectMeta) : Bool :=
  let annotation : Option GoMap :=
    match m.GetAnnotations with
    | none => some []
    | some entries => some entries
  let v := ToLower L (GoMap.get annotation AnnotationMutateKey)
  let required : Bool :=
    if v = "n" ∨ v = "no" ∨ v = "false" ∨ v = "off" then false else true
  let status := GoMap.get annotation AnnotationStatusKey
  if ToLower L status = "mutated" then false else required

/-- Loop of `mutateAnnotations` over the entries of `added`, carrying `target`
(reset to an empty map by the first branch) and the patch built so far. -/
def mutateAnnotationsLoop :
    Option GoMap → List (String × String) → List patchOperation → List patchOperation
  | _, [], patch => patch
  | target, (key, value) :: rest, patch =>
    if target.isNone || GoMap.get target key == "" then
      mutateAnnotationsLoop (some []) rest
        (patch ++ [{ Op := "add", Path := "/metadata/annotations",
                     Value := .map [(key, value)] }])
    else
      mutateAnnotationsLoop target rest
        (patch ++ [{ Op := "replace", Path := "/metadata/annotations/" ++ key,
                     Value := .str value }])

/-- Function `mutateAnnotations`; the entries of `added` are visited in list order. -/
def mutateAnnotations (target : Option GoMap) (added : GoMap) : List patchOperation :=
  mutateAnnotationsLoop target added []

/-- The `switch req.Kind.Kind` of `mutate` (lines 178-213): the metadata of the
decoded object, or the response returned early. -/
def objectMetaOf (L : Lib) (req : AdmissionRequest) : Except AdmissionResponse ObjectMeta :=
  if req.Kind = "Deployment" then
    match L.unmarshalDeployment req.Object.Raw with
    | .error err => .error { Result := some { Code := 400, Message := err } }
    | .ok deployment => .ok deployment.ObjectMeta
  else if req.Kind = "Service" then
    match L.unmarshalService req.Object.Raw with
    | .error err => .error { Result := some { Code := 400, Message := err } }
    | .ok service => .ok service.ObjectMeta
  else
    .error { Result := some { Code := 400,
                              Message := "Can't handler the kind(" ++ req.Kind ++ ") object" } }

/-- Method `WebHookServer.mutate`. The log call of line 176 reads `req.Kind.Kind`,
so a nil request panics there. -/
def mutate (L : Lib) (_s : WebHookServer) (a : AdmissionReview) :
    Except Panic AdmissionResponse :=
  match a.Request with
  | none => .error .nilPointerDereference
  | some req =>
    match objectMetaOf L req with
    | .error resp => .ok resp
    | .ok objectMeta =>
      if !(mutationRequired L objectMeta) then
        .ok { Allowed := true }
      else
        let annotations : GoMap := [(AnnotationStatusKey, "mutated")]
        let patch := [] ++ mutateAnnotations objectMeta.GetAnnotations annotations
        match L.marshalPatch patch with
        | .error err => .ok { Result := some { Code := 400, Message := err } }
        | .ok patchBytes =>
          .ok { Allowed := true, Patch := some patchBytes, PatchType := some .JSONPatch }

/-! ## Admission review engine -/

/-- The part of `*http.Request` that `ServHandler` reads: the body (`none` when
`request.Body` is nil, an error when reading it fails), the `Content-Type`
header and the URL path. -/
structure HttpRequest where
  Body : Option (Except String Bytes)
  ContentType : String
  Path : String

/-- What `ServHandler` leaves on the `http.ResponseWriter`: an `http.Error`, or the
encoded review (with the envelope that was encoded). -/
inductive HandlerResult where
  | httpError (code : Nat) (message : String)
  | written (review : AdmissionReview) (bytes : Bytes)
  deriving DecidableEq, Repr

/-- Assemble step of `ServHandler` (lines 87-97). -/
def assemble (requestAdmissionReview : AdmissionReview)
    (admissionResponse : Option AdmissionResponse) : AdmissionReview :=
  let responseAdmissionReview : AdmissionReview :=
    { APIVersion := requestAdmissionReview.APIVersion, Kind := requestAdmissionReview.Kind }
  match admissionResponse with
  | none => responseAdmissionReview
  | some resp =>
    match requestAdmissionReview.Request with
    | none => { responseAdmissionReview with Response := some resp }
    | some req => { responseAdmissionReview with Response := some { resp with UID := req.UID } }

/-- Encode-and-write step of `ServHandler` (lines 100-112); the write itself succeeds. -/
def encodeAndWrite (L : Lib) (responseAdmissionReview : AdmissionReview) : HandlerResult :=
  match L.marshalReview responseAdmissionReview with
  | .error err => .httpError 500 ("Can't encode response: " ++ err)
  | .ok respBytes => .written responseAdmissionReview respBytes

/-- Decode-or-dispatch step of `ServHandler` (lines 68-84): the pointer
`admissionResponse`, nil when the path is neither route. -/
def dispatch (L : Lib) (s : WebHookServer) (path : String)
    (requestAdmissionReview : AdmissionReview) (err : Option String) :
    Except Panic (Option AdmissionResponse) :=
  match err with
  | some e => .ok (some { Result := some { Message := e } })
  | none =>
    if path = "/mutate" then
      (mutate L s requestAdmissionReview).map some
    else if path = "/validate" then
      (validate L s requestAdmissionReview).map some
    else .ok none

/-- Method `WebHookServer.ServHandler`. -/
def ServHandler (L : Lib) (s : WebHookServer) (request : HttpRequest) :
    Except Panic HandlerResult :=
  let body : Bytes :=
    match request.Body with
    | some (.ok data) => data
    | _ => []
  if body.length = 0 then
    .ok (.httpError 400 "empty data body")
  else if request.ContentType ≠ "application/json" then
    .ok (.httpError 415 "Content-Type invalid,expect application/json")
  else
    let decoded := L.decode body
    match dispatch L s request.Path decoded.1 decoded.2 with
    | .error p => .error p
    | .ok admissionResponse => .ok (encodeAndWrite L (assemble decoded.1 admissionResponse))

/-- The patterns on which `main.go` registers `ServHandler` (lines 44-45). -/
def registeredPaths : List String := ["/validate", "/mutate"]

/-- The server of `main.go` lines 43-46. The mux calls `ServHandler` for a request
whose path is one of the registered patterns (a pattern without a trailing
slash matches that path only) and answers every other request itself: the
outcome of the handler, or `none` when the handler is not called. -/
def serve (L : Lib) (s : WebHookServer) (request : HttpRequest) :
    Option (Except Panic HandlerResult) :=
  if request.Path ∈ registeredPaths then some (ServHandler L s request) else none

/-! ## Admission configuration reconciler (`cmd/tls/main.go`) -/

/-- A Go `error` as the reconciler sees it: whether `errors.IsNotFound` holds, and its text. -/
structure GoError where
  IsNotFound : Bool
  Text : String
  deriving DecidableEq, Repr

/-- `admissionregistration/v1.ServiceReference`. -/
structure ServiceReference where
  Name : String
  Namespace : String
  Path : String
  deriving DecidableEq, Repr

/-- `admissionregistration/v1.WebhookClientConfig`. -/
structure WebhookClientConfig where
  CABundle : Bytes
  Service : ServiceReference
  deriving DecidableEq, Repr

/-- `admissionregistration/v1.RuleWithOperations`, with the embedded `Rule` inlined. -/
structure RuleWithOperations where
  Operations : List String
  APIGroups : List String
  APIVersions : List String
  Resources : List String
  deriving DecidableEq, Repr

/-- `ValidatingWebhook` and `MutatingWebhook`: the fields the reconciler sets are the same. -/
structure WebhookEntry where
  Name : String
  ClientConfig : WebhookClientConfig
  Rules : List RuleWithOperations
  AdmissionReviewVersions : List String
  SideEffects : String
  deriving DecidableEq, Repr

/-- `ValidatingWebhookConfiguration` and `MutatingWebhookConfiguration`. -/
structure WebhookConfiguration where
  Name : String
  Webhooks : List WebhookEntry
  deriving DecidableEq, Repr

/-- The two registration kinds. -/
inductive ConfigKind where
  | validating
  | mutating
  deriving DecidableEq, Repr

/-- A call on the control-plane client. -/
inductive Call where
  | get (kind : ConfigKind) (name : String)
  | create (kind : ConfigKind) (object : WebhookConfiguration)
  | update (kind : ConfigKind) (object : WebhookConfiguration)
  deriving DecidableEq, Repr

/-- The calls made so far, each with the error it returned (`none`: success). -/
abbrev Trace := List (Call × Option GoError)

/-- The control-plane client: the error answered to a call, given the calls before it. -/
abbrev Client := Trace → Call → Option GoError

/-- The six environment variables read by `CreateAdminssionConfig` (`""` when unset). -/
structure Environ where
  WEBHOOK_NAMESPACE : String
  VALIDATE_CONFIG : String
  MUTATE_CONFIG : String
  WEBHOOK_SERVICE : String
  VALIDATE_PATH : String
  MUTATE_PATH : String
  deriving DecidableEq, Repr

/-- The object `validateConfig` of lines 147-179. -/
def validateConfig (env : Environ) (caCert : Bytes) : WebhookConfiguration :=
  { Name := env.VALIDATE_CONFIG,
    Webhooks := [
      { Name := "io.ydzs.admission-validat",
        ClientConfig :=
          { CABundle := caCert,
            Service := { Name := env.WEBHOOK_SERVICE, Namespace := env.WEBHOOK_NAMESPACE,
                         Path := env.VALIDATE_PATH } },
        Rules := [
          { Operations := ["CREATE"], APIGroups := [""], APIVersions := ["v1"],
            Resources := ["pods"] }],
        AdmissionReviewVersions := ["v1"],
        SideEffects := "None" }] }

/-- The object `mutateConfig` of lines 198-230. -/
def mutateConfig (env : Environ) (caCert : Bytes) : WebhookConfiguration :=
  { Name := env.MUTATE_CONFIG,
    Webhooks := [
      { Name := "io.ydzs.admission-mutate",
        ClientConfig :=
          { CABundle := caCert,
            Service := { Name := env.WEBHOOK_SERVICE, Namespace := env.WEBHOOK_NAMESPACE,
                         Path := env.MUTATE_PATH } },
        Rules := [
          { Operations := ["CREATE"], APIGroups := ["apps", ""], APIVersions := ["v1"],
            Resources := ["deployments", "services"] }],
        AdmissionReviewVersions := ["v1"],
        SideEffects := "None" }] }

/-- One client call: its answer, and the trace extended by it. -/
def Client.call (cli : Client) (t : Trace) (c : Call) : Option GoError × Trace :=
  (cli t c, t ++ [(c, cli t c)])

/-- The get / create-or-update block, lines 180-195 for the validating kind and
lines 231-246 for the mutating kind: the error the function returns at once
(`none`: fall through), and the trace. -/
def reconcile (cli : Client) (kind : ConfigKind) (name : String)
    (desired : WebhookConfiguration) (t : Trace) : Option GoError × Trace :=
  match cli.call t (.get kind name) with
  | (some err, t1) =>
    if err.IsNotFound then
      match cli.call t1 (.create kind desired) with
      | (some err2, t2) => (some err2, t2)
      | (none, t2) => (none, t2)
    else (some err, t1)
  | (none, t1) =>
    match cli.call t1 (.update kind desired) with
    | (some err2, t2) => (some err2, t2)
    | (none, t2) => (none, t2)

/-- Function `CreateAdminssionConfig`: the returned error (`none` for nil) and the
calls made on the client. `initCli` is the result of `pkg.InitkubernetesCli()`. -/
def CreateAdminssionConfig (initCli : Except GoError Client) (env : Environ)
    (caCert : Bytes) : Option GoError × Trace :=
  match initCli with
  | .error err => (some err, [])
  | .ok clientset =>
    let r1 : Option GoError × Trace :=
      if env.VALIDATE_CONFIG ≠ "" then
        reconcile clientset .validating env.VALIDATE_CONFIG (validateConfig env caCert) []
      else (none, [])
    match r1 with
    | (some err, t1) => (some err, t1)
    | (none, t1) =>
      let r2 : Option GoError × Trace :=
        if env.MUTATE_CONFIG ≠ "" then
          reconcile clientset .mutating env.MUTATE_CONFIG (mutateConfig env caCert) t1
        else (none, t1)
      match r2 with
      | (some err, t2) => (some err, t2)
      | (none, t2) => (none, t2)

/-- The configured name of a registration kind. -/
def configName (env : Environ) : ConfigKind → String
  | .validating => env.VALIDATE_CONFIG
  | .mutating => env.MUTATE_CONFIG

/-- The desired object of a registration kind. -/
def desiredConfig (env : Environ) (caCert : Bytes) : ConfigKind → WebhookConfiguration
  | .validating => validateConfig env caCert
  | .mutating => mutateConfig env caCert

/-- The kind a call is about. -/
def Call.kind : Call → ConfigKind
  | .get k _ => k
  | .create k _ => k
  | .update k _ => k

/-- Whether a call is a create or an update. -/
def Call.isWrite : Call → Bool
  | .get _ _ => false
  | .create _ _ => true
  | .update _ _ => true

/-- The calls of a trace about one kind, in order. -/
def callsOf (t : Trace) (k : ConfigKind) : List Call :=
  (t.map Prod.fst).filter (fun c => decide (c.kind = k))

/-- The create and update calls of a trace about one kind, in order. -/
def writesOf (t : Trace) (k : ConfigKind) : List Call :=
  (callsOf t k).filter Call.isWrite

/-! ## JSON documents, JSON pointers (RFC 6901) and JSON patch (RFC 6902)

The control plane applies the patch of an admission response to the JSON
document of the object. This evaluator is not part of the repository; it is
the semantics against which the paths chosen by `mutateAnnotations` are
judged. Of the patch operations only `add` and `replace`, the two the code
emits, are modelled. -/

/-- A JSON value. -/
inductive Json where
  | null
  | bool (b : Bool)
  | num (n : Int)
  | str (s : String)
  | arr (items : List Json)
  | obj (members : List (String × Json))

/-- Split the characters of a pointer (after its leading `/`) at every `/`. -/
def splitSlash : List Char → List (List Char)
  | [] => [[]]
  | c :: cs =>
    match splitSlash cs with
    | [] => [[c]]
    | t :: ts => if c = '/' then [] :: t :: ts else (c :: t) :: ts

/-- Undo the escapes of a reference token: `~1` is `/`, `~0` is `~`. -/
def unescapeToken : List Char → List Char
  | '~' :: '1' :: cs => '/' :: unescapeToken cs
  | '~' :: '0' :: cs => '~' :: unescapeToken cs
  | c :: cs => c :: unescapeToken cs
  | [] => []

/-- The reference tokens of a JSON pointer: `""` is the whole document, any other
pointer starts with `/` and its tokens are separated by `/`. -/
def parsePointer (path : String) : Option (List String) :=
  match path.data with
  | [] => some []
  | '/' :: cs => some ((splitSlash cs).map (fun t => String.mk (unescapeToken t)))
  | _ :: _ => none

/-- An array index token: `0`, or digits without a leading zero. -/
def parseIndex (token : String) : Option Nat :=
  match token.data with
  | [] => none
  | ['0'] => some 0
  | '0' :: _ => none
  | cs => if cs.all Char.isDigit then some (cs.foldl (fun n c => 10 * n + (c.toNat - 48)) 0)
          else none

/-- Set member `k` of an object: replace it where it stands, or append it. -/
def setMember : List (String × Json) → String → Json → List (String × Json)
  | [], k, v => [(k, v)]
  | (k1, v1) :: rest, k, v =>
    if k1 = k then (k, v) :: rest else (k1, v1) :: setMember rest k v

/-- The value a pointer addresses, if any. -/
def Json.getPath : List String → Json → Option Json
  | [], doc => some doc
  | t :: ts, .obj members =>
    match members.lookup t with
    | none => none
    | some child => Json.getPath ts child
  | t :: ts, .arr items =>
    match parseIndex t with
    | none => none
    | some i =>
      match items.get? i with
      | none => none
      | some child => Json.getPath ts child
  | _ :: _, _ => none

/-- Operation `replace`: the target location must exist. -/
def Json.replaceAt : List String → Json → Json → Option Json
  | [], v, _ => some v
  | t :: ts, v, .obj members =>
    match members.lookup t with
    | none => none
    | some child =>
      match Json.replaceAt ts v child with
      | none => none
      | some child1 => some (.obj (setMember members t child1))
  | t :: ts, v, .arr items =>
    match parseIndex t with
    | none => none
    | some i =>
      match items.get? i with
      | none => none
      | some child =>
        match Json.replaceAt ts v child with
        | none => none
        | some child1 => some (.arr (items.set i child1))
  | _ :: _, _, _ => none

/-- Operation `add`: the parent of the target location must exist; a member that
exists is replaced, an array element is inserted (`-` appends). -/
def Json.addAt : List String → Json → Json → Option Json
  | [], v, _ => some v
  | [t], v, .obj members => some (.obj (setMember members t v))
  | [t], v, .arr items =>
    if t = "-" then some (.arr (items ++ [v]))
    else
      match parseIndex t with
      | none => none
      | some i => if i ≤ items.length then some (.arr (items.take i ++ v :: items.drop i))
                  else none
  | t :: t1 :: ts, v, .obj members =>
    match members.lookup t with
    | none => none
    | some child =>
      match Json.addAt (t1 :: ts) v child with
      | none => none
      | some child1 => some (.obj (setMember members t child1))
  | t :: t1 :: ts, v, .arr items =>
    match parseIndex t with
    | none => none
    | some i =>
      match items.get? i with
      | none => none
      | some child =>
        match Json.addAt (t1 :: ts) v child with
        | none => none
        | some child1 => some (.arr (items.set i child1))
  | _ :: _, _, _ => none

/-- A string map as a JSON object. -/
def mapJson (m : GoMap) : Json := .obj (m.map (fun kv => (kv.1, .str kv.2)))

/-- The JSON value of a patch operation. -/
def PatchValue.toJson : PatchValue → Json
  | .str s => .str s
  | .map m => mapJson m

/-- Apply one patch operation to a document; `none` when it fails. -/
def applyOperation (doc : Json) (op : patchOperation) : Option Json :=
  match parsePointer op.Path with
  | none => none
  | some tokens =>
    if op.Op = "add" then Json.addAt tokens op.Value.toJson doc
    else if op.Op = "replace" then Json.replaceAt tokens op.Value.toJson doc
    else none

/-- Apply a patch, operation by operation; `none` as soon as one fails. -/
def applyPatch : List patchOperation → Json → Option Json
  | [], doc => some doc
  | op :: rest, doc =>
    match applyOperation doc op with
    | none => none
    | some doc1 => applyPatch rest doc1

/-- The JSON form of object metadata: `name` and `namespace` when set, and the
`annotations` member when the map is not nil. -/
def metadataJson (m : ObjectMeta) : Json :=
  .obj ((if m.Name = "" then [] else [("name", Json.str m.Name)])
    ++ (if m.Namespace = "" then [] else [("namespace", Json.str m.Namespace)])
    ++ (match m.Annotations with
        | none => []
        | some a => [("annotations", mapJson a)]))

/-- A JSON document of the given kind that carries this metadata object. -/
def objectJson (kind : String) (m : ObjectMeta) : Json :=
  .obj [("kind", .str kind), ("metadata", metadataJson m)]

/-- The status annotation of a JSON document. -/
def statusOf (doc : Json) : Option Json :=
  doc.getPath ["metadata", "annotations", AnnotationStatusKey]

/-! ## Predicates used in the statements -/

/-- The request is for a Deployment or a Service whose raw object parses, and `m`
is the metadata of the parsed object. -/
def IsDeploymentOrService (L : Lib) (req : AdmissionRequest) (m : ObjectMeta) : Prop :=
  (req.Kind = "Deployment"
      ∧ ∃ d, L.unmarshalDeployment req.Object.Raw = .ok d ∧ d.ObjectMeta = m)
    ∨ (req.Kind = "Service"
      ∧ ∃ sv, L.unmarshalService req.Object.Raw = .ok sv ∧ sv.ObjectMeta = m)

/-- Every answer recorded in the trace is the answer of the client to that call
after the calls recorded before it. -/
def Answered (cli : Client) (t : Trace) : Prop :=
  ∀ pre c r post, t = pre ++ (c, r) :: post → r = cli pre c

/-- The shape of one get / create-or-update block: the calls it appends to the trace. -/
def ReconcileShape (kind : ConfigKind) (name : String) (desired : WebhookConfiguration)
    (r : Option GoError) (g : Trace) : Prop :=
  (∃ e, e.IsNotFound = true ∧ g = [(.get kind name, some e), (.create kind desired, r)])
    ∨ (∃ e, e.IsNotFound = false ∧ r = some e ∧ g = [(.get kind name, some e)])
    ∨ g = [(.get kind name, none), (.update kind desired, r)]

/-! ## Test fixtures -/

/-- Stand-in for the bytes of a request body, the JSON text of a review. -/
def demoBody : Bytes := [1]

/-- Stand-in for the raw bytes of the object of a request. -/
def demoRaw : Bytes := [2]

/-- Stand-in for the JSON encoding of a patch. -/
def demoPatchBytes : Bytes := [3]

/-- Stand-in for the JSON encoding of a response envelope. -/
def demoReviewBytes : Bytes := [4]

/-- A library whose decoders answer the given review, pod and metadata whatever
the bytes, and whose encoders answer the stand-in byte strings; `lower` is the
ASCII mapping. -/
def fixedLib (review : AdmissionReview) (pod : Pod) (m : ObjectMeta) : Lib where
  lower := Char.toLower
  lower_ascii := fun _ _ => rfl
  decode := fun _ => (review, none)
  unmarshalPod := fun _ => .ok pod
  unmarshalDeployment := fun _ => .ok { ObjectMeta := m }
  unmarshalService := fun _ => .ok { ObjectMeta := m }
  marshalPatch := fun _ => .ok demoPatchBytes
  marshalReview := fun _ => .ok demoReviewBytes

/-- An allow-list of two registries. -/
def demoServer : WebHookServer := { WhiteListPag := ["docker.io/", "gcr.io/"] }

/-- A pod whose two images are on the allow-list of `demoServer`. -/
def demoPodGood : Pod :=
  { Spec := { Containers := [{ Name := "app", Image := "docker.io/nginx:1.25" },
                             { Name := "proxy", Image := "gcr.io/envoy:v2" }] } }

/-- A pod whose second and third images are not on the allow-list of `demoServer`. -/
def demoPodBad : Pod :=
  { Spec := { Containers := [{ Name := "app", Image := "docker.io/nginx:1.25" },
                             { Name := "tool", Image := "quay.io/tool:3" },
                             { Name := "misc", Image := "Docker.io/misc:1" }] } }

/-- A request for the object kind `kind` with correlation UID `uid-1`. -/
def demoRequest (kind : String) : AdmissionRequest :=
  { UID := "uid-1", Kind := kind, Namespace := "default", Name := "demo",
    Operation := "CREATE", Object := { Raw := demoRaw } }

/-- A review envelope around `demoRequest kind`. -/
def demoReview (kind : String) : AdmissionReview :=
  { APIVersion := "admission.k8s.io/v1", Kind := "AdmissionReview",
    Request := some (demoRequest kind) }

/-- A review envelope without a request object. -/
def demoReviewNoRequest : AdmissionReview :=
  { APIVersion := "admission.k8s.io/v1", Kind := "AdmissionReview", Request := none }

/-- Metadata with the given annotations. -/
def demoMeta (annotations : Option GoMap) : ObjectMeta :=
  { Name := "demo", Namespace := "default", Annotations := annotations }

/-- An HTTP request with a JSON body on the given path. -/
def demoHttp (path : String) : HttpRequest :=
  { Body := some (.ok demoBody), ContentType := "application/json", Path := path }

/-- A CA certificate, as bytes. -/
def demoCA : Bytes := [45, 45, 45]

/-- The not-found error. -/
def demoNotFound : GoError := { IsNotFound := true, Text := "not found" }

/-- An error other than not-found. -/
def demoForbidden : GoError := { IsNotFound := false, Text := "forbidden" }

/-- A control-plane client that answers not-found to every get and success otherwise. -/
def clientAbsent : Client := fun _ c =>
  match c with
  | .get _ _ => some demoNotFound
  | _ => none

/-- A control-plane client that answers success to every call. -/
def clientPresent : Client := fun _ _ => none

/-- A control-plane client whose gets fail with an error other than not-found. -/
def clientForbidden : Client := fun _ c =>
  match c with
  | .get _ _ => some demoForbidden
  | _ => none

/-- An environment that names both registrations. -/
def demoEnviron : Environ :=
  { WEBHOOK_NAMESPACE := "default", VALIDATE_CONFIG := "validat-cfg",
    MUTATE_CONFIG := "mutate-cfg", WEBHOOK_SERVICE := "admission-validat",
    VALIDATE_PATH := "/validate", MUTATE_PATH := "/mutate" }

/-- The trace of the reconciler against `clientAbsent`. -/
def demoTraceAbsent : Trace :=
  [(.get .validating "validat-cfg", some demoNotFound),
   (.create .validating (validateConfig demoEnviron demoCA), none),
   (.get .mutating "mutate-cfg", some demoNotFound),
   (.create .mutating (mutateConfig demoEnviron demoCA), none)]

/-- The trace of the reconciler against `clientPresent`. -/
def demoTracePresent : Trace :=
  [(.get .validating "validat-cfg", none),
   (.update .validating (validateConfig demoEnviron demoCA), none),
   (.get .mutating "mutate-cfg", none),
   (.update .mutating (mutateConfig demoEnviron demoCA), none)]

/-- The trace of the reconciler against `clientForbidden`. -/
def demoTraceForbidden : Trace :=
  [(.get .validating "validat-cfg", some demoForbidden)]

/-! ## Validation policy: proofs -/

theorem foldl_flag (f : String → Bool) (l : List String) (flag : Bool) :
    l.foldl (fun flag reg => if f reg then true else flag) flag = (flag || l.any f) := by
  induction l generalizing flag with
  | nil => simp
  | cons x xs ih =>
    simp only [List.foldl_cons, List.any_cons, ih]
    cases f x <;> cases flag <;> simp

theorem whiteList_eq_any (s : WebHookServer) (image : String) :
    whiteList s image = s.WhiteListPag.any (fun reg => HasPrefix image reg) := by
  unfold whiteList
  rw [foldl_flag (fun reg => HasPrefix image reg)]
  simp

theorem whiteList_true_iff (s : WebHookServer) (image : String) :
    whiteList s image = true ↔ ∃ reg ∈ s.WhiteListPag, HasPrefix image reg = true := by
  rw [whiteList_eq_any, List.any_eq_true]

theorem whiteList_false_iff (s : WebHookServer) (image : String) :
    whiteList s image = false ↔ ∀ reg ∈ s.WhiteListPag, HasPrefix image reg = false := by
  rw [whiteList_eq_any, List.any_eq_false]
  simp

theorem validateLoop_all (s : WebHookServer) (cs : List Container) (st : Bool × Nat × String)
    (h : ∀ c ∈ cs, whiteList s c.Image = true) : validateLoop s cs st = st := by
  induction cs with
  | nil => rfl
  | cons c rest ih =>
    have hc : whiteList s c.Image = true := h c (List.mem_cons_self _ _)
    have hrest : ∀ x ∈ rest, whiteList s x.Image = true :=
      fun x hx => h x (List.mem_cons_of_mem _ hx)
    simp [validateLoop, hc, ih hrest]

theorem validateLoop_first (s : WebHookServer) (pre post : List Container) (c : Container)
    (st : Bool × Nat × String)
    (hpre : ∀ x ∈ pre, whiteList s x.Image = true) (hc : whiteList s c.Image = false) :
    validateLoop s (pre ++ c :: post) st = (false, 403, untrustedMessage s c.Image) := by
  induction pre with
  | nil => simp [validateLoop, hc]
  | cons x rest ih =>
    have hx : whiteList s x.Image = true := hpre x (List.mem_cons_self _ _)
    have hrest : ∀ y ∈ rest, whiteList s y.Image = true :=
      fun y hy => hpre y (List.mem_cons_of_mem _ hy)
    simp [validateLoop, hx, ih hrest]

theorem exists_first_failing {α : Type} (p : α → Bool) (l : List α)
    (h : ∃ x ∈ l, p x = false) :
    ∃ pre c post, l = pre ++ c :: post ∧ (∀ x ∈ pre, p x = true) ∧ p c = false := by
  induction l with
  | nil => obtain ⟨x, hx, _⟩ := h; cases hx
  | cons a rest ih =>
    cases ha : p a with
    | false => exact ⟨[], a, rest, rfl, by simp, ha⟩
    | true =>
      have hrest : ∃ x ∈ rest, p x = false := by
        obtain ⟨x, hx, hpx⟩ := h
        rcases List.mem_cons.mp hx with rfl | hx1
        · rw [ha] at hpx; cases hpx
        · exact ⟨x, hx1, hpx⟩
      obtain ⟨pre, c, post, hl, hpre, hc⟩ := ih hrest
      refine ⟨a :: pre, c, post, by simp [hl], ?_, hc⟩
      intro x hx
      rcases List.mem_cons.mp hx with rfl | hx1
      · exact ha
      · exact hpre x hx1

/-- C1: when the raw object of the request parses as a pod and every container
image starts with some allow-list entry, `validate` answers `allowed = true`
with code 200 and the empty message; a pod without containers is a special
case of this. -/
theorem validate_allows_whitelisted (L : Lib) (s : WebHookServer) (a : AdmissionReview)
    (req : AdmissionRequest) (pod : Pod)
    (hreq : a.Request = some req)
    (hpod : L.unmarshalPod req.Object.Raw = .ok pod)
    (hall : ∀ c ∈ pod.Spec.Containers, ∃ reg ∈ s.WhiteListPag, HasPrefix c.Image reg = true) :
    validate L s a
      = .ok { Allowed := true, Result := some { Code := 200, Message := "" } } := by
  have h : ∀ c ∈ pod.Spec.Containers, whiteList s c.Image = true :=
    fun c hc => (whiteList_true_iff s c.Image).mpr (hall c hc)
  simp [validate, hreq, hpod, validateLoop_all s _ _ h]

/-- C2: when the raw object of the request parses as a pod and some container
image starts with no allow-list entry, the containers split as
`pre ++ c :: post` where every container of `pre` passes and `c` is the first
that does not, and `validate` answers `allowed = false` with code 403 and the
message naming the image of `c` and the allow-list. -/
theorem validate_denies_first_violation (L : Lib) (s : WebHookServer) (a : AdmissionReview)
    (req : AdmissionRequest) (pod : Pod)
    (hreq : a.Request = some req)
    (hpod : L.unmarshalPod req.Object.Raw = .ok pod)
    (hex : ∃ c ∈ pod.Spec.Containers, ∀ reg ∈ s.WhiteListPag, HasPrefix c.Image reg = false) :
    ∃ pre c post, pod.Spec.Containers = pre ++ c :: post
      ∧ (∀ x ∈ pre, ∃ reg ∈ s.WhiteListPag, HasPrefix x.Image reg = true)
      ∧ (∀ reg ∈ s.WhiteListPag, HasPrefix c.Image reg = false)
      ∧ validate L s a
        = .ok { Allowed := false,
                Result := some
                  { Code := 403,
                    Message := c.Image
                      ++ " image comes from an untrusted validat! Only image from "
                      ++ fmtStrings s.WhiteListPag ++ " are allowed" } } := by
  have h : ∃ c ∈ pod.Spec.Containers, whiteList s c.Image = false := by
    obtain ⟨c, hc, hcw⟩ := hex
    exact ⟨c, hc, (whiteList_false_iff s c.Image).mpr hcw⟩
  obtain ⟨pre, c, post, hl, hpre, hc⟩ :=
    exists_first_failing (fun c => whiteList s c.Image) pod.Spec.Containers h
  refine ⟨pre, c, post, hl, ?_, (whiteList_false_iff s c.Image).mp hc, ?_⟩
  · exact fun x hx => (whiteList_true_iff s x.Image).mp (hpre x hx)
  · simp [validate, hreq, hpod, hl, validateLoop_first s pre post c _ hpre hc,
      untrustedMessage]

/-- Witness of C1: the two-container pod of `demoPodGood` and the pod without containers. -/
theorem validate_allows_whitelisted_witness :
    ((demoReview "Pod").Request = some (demoRequest "Pod")
      ∧ (∀ c ∈ demoPodGood.Spec.Containers,
          ∃ reg ∈ demoServer.WhiteListPag, HasPrefix c.Image reg = true)
      ∧ validate (fixedLib {} demoPodGood {}) demoServer (demoReview "Pod")
        = .ok { Allowed := true, Result := some { Code := 200, Message := "" } })
    ∧ validate (fixedLib {} {} {}) demoServer (demoReview "Pod")
        = .ok { Allowed := true, Result := some { Code := 200, Message := "" } } :=
  ⟨⟨rfl, by decide,
    validate_allows_whitelisted (fixedLib {} demoPodGood {}) demoServer (demoReview "Pod")
      (demoRequest "Pod") demoPodGood rfl rfl (by decide)⟩,
   validate_allows_whitelisted (fixedLib {} {} {}) demoServer (demoReview "Pod")
      (demoRequest "Pod") {} rfl rfl (by simp)⟩

/-- Witness of C2: `demoPodBad` has a violating container. -/
theorem validate_denies_first_violation_witness :
    (∃ c ∈ demoPodBad.Spec.Containers,
        ∀ reg ∈ demoServer.WhiteListPag, HasPrefix c.Image reg = false)
    ∧ ∃ pre c post, demoPodBad.Spec.Containers = pre ++ c :: post
      ∧ (∀ x ∈ pre, ∃ reg ∈ demoServer.WhiteListPag, HasPrefix x.Image reg = true)
      ∧ (∀ reg ∈ demoServer.WhiteListPag, HasPrefix c.Image reg = false)
      ∧ validate (fixedLib {} demoPodBad {}) demoServer (demoReview "Pod")
        = .ok { Allowed := false,
                Result := some
                  { Code := 403,
                    Message := c.Image
                      ++ " image comes from an untrusted validat! Only image from "
                      ++ fmtStrings demoServer.WhiteListPag ++ " are allowed" } } :=
  ⟨by decide,
   validate_denies_first_violation (fixedLib {} demoPodBad {}) demoServer (demoReview "Pod")
      (demoRequest "Pod") demoPodBad rfl rfl (by decide)⟩

/-- The denial of `demoPodBad` names the second image, the first off the allow-list. -/
theorem validate_demoPodBad :
    validate (fixedLib {} demoPodBad {}) demoServer (demoReview "Pod")
      = .ok { Allowed := false,
              Result := some
                { Code := 403,
                  Message := "quay.io/tool:3 image comes from an untrusted validat! "
                    ++ "Only image from [docker.io/ gcr.io/] are allowed" } } := by
  rfl

/-! ## Mutation policy: proofs -/

theorem get_none (key : String) : GoMap.get none key = "" := rfl

theorem get_annotation_default (m : ObjectMeta) (key : String) :
    GoMap.get (match m.GetAnnotations with
               | none => some []
               | some entries => some entries) key
      = GoMap.get m.Annotations key := by
  unfold ObjectMeta.GetAnnotations
  cases m.Annotations <;> rfl

theorem get_eq_empty_of_absent (m : ObjectMeta) (key : String)
    (h : m.Annotations = none ∨ ∃ e, m.Annotations = some e
      ∧ (e.lookup key = none ∨ e.lookup key = some "")) :
    GoMap.get m.Annotations key = "" := by
  rcases h with h | ⟨e, he, h | h⟩
  · rw [h]; rfl
  · rw [he]; simp [GoMap.get, h]
  · rw [he]; simp [GoMap.get, h]

theorem get_ne_empty_of_present (m : ObjectMeta) (key : String)
    (h : ∃ e v, m.Annotations = some e ∧ e.lookup key = some v ∧ v ≠ "") :
    GoMap.get m.Annotations key ≠ "" := by
  obtain ⟨e, v, he, hv, hne⟩ := h
  rw [he]
  simpa [GoMap.get, hv] using hne

theorem ToLower_empty (L : Lib) : ToLower L "" = "" := rfl

theorem ToLower_ascii (L : Lib) (s : String) (h : ∀ c ∈ s.data, c.toNat < 128) :
    ToLower L s = String.mk (s.data.map Char.toLower) := by
  unfold ToLower
  congr 1
  exact List.map_congr_left (fun c hc => L.lower_ascii c (h c hc))

theorem ToLower_off (L : Lib) : ToLower L "off" = "off" := by
  rw [ToLower_ascii L "off" (by decide)]
  decide

theorem mutationRequired_eq (L : Lib) (m : ObjectMeta) :
    mutationRequired L m
      = (if ToLower L (GoMap.get m.Annotations AnnotationStatusKey) = "mutated" then false
         else if ToLower L (GoMap.get m.Annotations AnnotationMutateKey) = "n"
              ∨ ToLower L (GoMap.get m.Annotations AnnotationMutateKey) = "no"
              ∨ ToLower L (GoMap.get m.Annotations AnnotationMutateKey) = "false"
              ∨ ToLower L (GoMap.get m.Annotations AnnotationMutateKey) = "off"
         then false else true) := by
  simp only [mutationRequired, get_annotation_default]

theorem mutationRequired_of_mutated (L : Lib) (m : ObjectMeta)
    (h : ToLower L (GoMap.get m.Annotations AnnotationStatusKey) = "mutated") :
    mutationRequired L m = false := by
  rw [mutationRequired_eq, if_pos h]

theorem objectMetaOf_ok (L : Lib) (req : AdmissionRequest) (m : ObjectMeta)
    (h : IsDeploymentOrService L req m) : objectMetaOf L req = .ok m := by
  rcases h with ⟨hk, d, hd, hm⟩ | ⟨hk, sv, hsv, hm⟩
  · simp [objectMetaOf, hk, hd, hm]
  · simp [objectMetaOf, hk, hsv, hm]

theorem mutate_not_required (L : Lib) (s : WebHookServer) (a : AdmissionReview)
    (req : AdmissionRequest) (m : ObjectMeta)
    (hreq : a.Request = some req) (hobj : IsDeploymentOrService L req m)
    (h : mutationRequired L m = false) :
    mutate L s a = .ok { Allowed := true } := by
  simp [mutate, hreq, objectMetaOf_ok L req m hobj, h]

theorem mutate_required (L : Lib) (s : WebHookServer) (a : AdmissionReview)
    (req : AdmissionRequest) (m : ObjectMeta) (bytes : Bytes)
    (hreq : a.Request = some req) (hobj : IsDeploymentOrService L req m)
    (h : mutationRequired L m = true)
    (hbytes : L.marshalPatch (mutateAnnotations m.Annotations
      [(AnnotationStatusKey, "mutated")]) = .ok bytes) :
    mutate L s a
      = .ok { Allowed := true, Patch := some bytes, PatchType := some .JSONPatch } := by
  simp [mutate, hreq, objectMetaOf_ok L req m hobj, h, ObjectMeta.GetAnnotations, hbytes]

theorem mutateAnnotations_add (target : Option GoMap) (key value : String)
    (h : GoMap.get target key = "") :
    mutateAnnotations target [(key, value)]
      = [{ Op := "add", Path := "/metadata/annotations", Value := .map [(key, value)] }] := by
  simp [mutateAnnotations, mutateAnnotationsLoop, h]

theorem mutateAnnotations_replace (target : Option GoMap) (key value : String)
    (h : GoMap.get target key ≠ "") :
    mutateAnnotations target [(key, value)]
      = [{ Op := "replace", Path := "/metadata/annotations/" ++ key,
           Value := .str value }] := by
  have hsome : target.isNone = false := by
    cases target with
    | none => exact absurd rfl h
    | some e => rfl
  simp [mutateAnnotations, mutateAnnotationsLoop, h, hsome]

/-- C3: for a Deployment or Service whose status annotation lower-cases to
`mutated`, `mutate` answers `allowed = true` without patch and without patch
type, whatever the other annotations (the mutate annotation included) are. -/
theorem mutate_idempotent (L : Lib) (s : WebHookServer) (a : AdmissionReview)
    (req : AdmissionRequest) (m : ObjectMeta)
    (hreq : a.Request = some req) (hobj : IsDeploymentOrService L req m)
    (hstatus : ToLower L (GoMap.get m.Annotations "io.ydzs.admission-validat/status")
      = "mutated") :
    mutate L s a
      = .ok { Allowed := true, Result := none, Patch := none, PatchType := none } :=
  mutate_not_required L s a req m hreq hobj (mutationRequired_of_mutated L m hstatus)

/-- Witness of C3: a Deployment annotated `status = MuTaTeD`, `mutate = yes`, and a
Service annotated `status = mutated`, `mutate = off`. -/
theorem mutate_idempotent_witness :
    (ToLower (fixedLib {} {} (demoMeta (some [("io.ydzs.admission-validat/mutate", "yes"),
        ("team", "a"), ("io.ydzs.admission-validat/status", "MuTaTeD")])))
        (GoMap.get (demoMeta (some [("io.ydzs.admission-validat/mutate", "yes"),
          ("team", "a"), ("io.ydzs.admission-validat/status", "MuTaTeD")])).Annotations
          "io.ydzs.admission-validat/status") = "mutated"
      ∧ mutate (fixedLib {} {} (demoMeta (some [("io.ydzs.admission-validat/mutate", "yes"),
          ("team", "a"), ("io.ydzs.admission-validat/status", "MuTaTeD")])))
          demoServer (demoReview "Deployment")
        = .ok { Allowed := true, Result := none, Patch := none, PatchType := none })
    ∧ mutate (fixedLib {} {} (demoMeta (some [("io.ydzs.admission-validat/status", "mutated"),
          ("io.ydzs.admission-validat/mutate", "off")])))
          demoServer (demoReview "Service")
        = .ok { Allowed := true, Result := none, Patch := none, PatchType := none } :=
  ⟨⟨by decide,
    mutate_idempotent _ demoServer (demoReview "Deployment") (demoRequest "Deployment") _
      rfl (Or.inl ⟨rfl, _, rfl, rfl⟩) (by decide)⟩,
   mutate_idempotent _ demoServer (demoReview "Service") (demoRequest "Service") _
      rfl (Or.inr ⟨rfl, _, rfl, rfl⟩) (by decide)⟩

/-- C4: for a Deployment or Service for which mutation is required and whose
annotations map is nil, or has no status key, or has it with the empty value,
the patch is the single operation `add` at `/metadata/annotations` with the
one-entry map `status ↦ mutated`, and `mutate` answers `allowed = true` with
the encoding of that patch and patch type JSONPatch. -/
theorem mutate_add_patch (L : Lib) (s : WebHookServer) (a : AdmissionReview)
    (req : AdmissionRequest) (m : ObjectMeta) (bytes : Bytes)
    (hreq : a.Request = some req) (hobj : IsDeploymentOrService L req m)
    (hrequired : mutationRequired L m = true)
    (hstatus : m.Annotations = none ∨ ∃ e, m.Annotations = some e
      ∧ (e.lookup "io.ydzs.admission-validat/status" = none
        ∨ e.lookup "io.ydzs.admission-validat/status" = some ""))
    (hbytes : L.marshalPatch
      [{ Op := "add", Path := "/metadata/annotations",
         Value := .map [("io.ydzs.admission-validat/status", "mutated")] }] = .ok bytes) :
    mutateAnnotations m.GetAnnotations [(AnnotationStatusKey, "mutated")]
        = [{ Op := "add", Path := "/metadata/annotations",
             Value := .map [("io.ydzs.admission-validat/status", "mutated")] }]
      ∧ mutate L s a
        = .ok { Allowed := true, Result := none, Patch := some bytes,
                PatchType := some .JSONPatch } := by
  have hget : GoMap.get m.Annotations AnnotationStatusKey = "" :=
    get_eq_empty_of_absent m AnnotationStatusKey hstatus
  have hpatch := mutateAnnotations_add m.Annotations AnnotationStatusKey "mutated" hget
  refine ⟨hpatch, mutate_required L s a req m bytes hreq hobj hrequired ?_⟩
  rw [hpatch]
  exact hbytes

/-- Witness of C4: a Service that carries another annotation and no status key. -/
theorem mutate_add_patch_witness :
    mutationRequired (fixedLib {} {} (demoMeta (some [("team", "a")])))
        (demoMeta (some [("team", "a")])) = true
    ∧ ((demoMeta (some [("team", "a")])).Annotations = none
        ∨ ∃ e, (demoMeta (some [("team", "a")])).Annotations = some e
          ∧ (e.lookup "io.ydzs.admission-validat/status" = none
            ∨ e.lookup "io.ydzs.admission-validat/status" = some ""))
    ∧ mutateAnnotations (demoMeta (some [("team", "a")])).GetAnnotations
          [(AnnotationStatusKey, "mutated")]
        = [{ Op := "add", Path := "/metadata/annotations",
             Value := .map [("io.ydzs.admission-validat/status", "mutated")] }]
    ∧ mutate (fixedLib {} {} (demoMeta (some [("team", "a")]))) demoServer
          (demoReview "Service")
        = .ok { Allowed := true, Result := none, Patch := some demoPatchBytes,
                PatchType := some .JSONPatch } :=
  ⟨by decide, Or.inr ⟨_, rfl, Or.inl (by decide)⟩,
   mutate_add_patch (fixedLib {} {} (demoMeta (some [("team", "a")]))) demoServer
      (demoReview "Service") (demoRequest "Service") (demoMeta (some [("team", "a")]))
      demoPatchBytes rfl (Or.inr ⟨rfl, _, rfl, rfl⟩) (by decide)
      (Or.inr ⟨_, rfl, Or.inl (by decide)⟩) rfl⟩

/-- Counterexample to C5 as stated: a Deployment whose status annotation is present
with the non-empty value `mutated` gets no patch at all. -/
theorem mutate_replace_counterexample :
    IsDeploymentOrService
        (fixedLib {} {} (demoMeta (some [("io.ydzs.admission-validat/status", "mutated")])))
        (demoRequest "Deployment")
        (demoMeta (some [("io.ydzs.admission-validat/status", "mutated")]))
    ∧ (∃ e v, (demoMeta (some [("io.ydzs.admission-validat/status", "mutated")])).Annotations
          = some e
        ∧ e.lookup "io.ydzs.admission-validat/status" = some v ∧ v ≠ "")
    ∧ mutate (fixedLib {} {} (demoMeta (some [("io.ydzs.admission-validat/status", "mutated")])))
          demoServer (demoReview "Deployment")
        = .ok { Allowed := true, Result := none, Patch := none, PatchType := none } :=
  ⟨Or.inl ⟨rfl, _, rfl, rfl⟩, ⟨_, "mutated", rfl, by decide, by decide⟩, rfl⟩

/-- C5, amended: for a Deployment or Service for which mutation is required and
whose status annotation is present with a non-empty value, the patch is the
single operation `replace` at
`/metadata/annotations/io.ydzs.admission-validat/status` with value `mutated`,
and `mutate` answers `allowed = true` with the encoding of that patch and
patch type JSONPatch. -/
theorem mutate_replace_patch (L : Lib) (s : WebHookServer) (a : AdmissionReview)
    (req : AdmissionRequest) (m : ObjectMeta) (bytes : Bytes)
    (hreq : a.Request = some req) (hobj : IsDeploymentOrService L req m)
    (hrequired : mutationRequired L m = true)
    (hstatus : ∃ e v, m.Annotations = some e
      ∧ e.lookup "io.ydzs.admission-validat/status" = some v ∧ v ≠ "")
    (hbytes : L.marshalPatch
      [{ Op := "replace", Path := "/metadata/annotations/io.ydzs.admission-validat/status",
         Value := .str "mutated" }] = .ok bytes) :
    mutateAnnotations m.GetAnnotations [(AnnotationStatusKey, "mutated")]
        = [{ Op := "replace",
             Path := "/metadata/annotations/io.ydzs.admission-validat/status",
             Value := .str "mutated" }]
      ∧ mutate L s a
        = .ok { Allowed := true, Result := none, Patch := some bytes,
                PatchType := some .JSONPatch } := by
  have hget : GoMap.get m.Annotations AnnotationStatusKey ≠ "" :=
    get_ne_empty_of_present m AnnotationStatusKey hstatus
  have hpatch : mutateAnnotations m.Annotations [(AnnotationStatusKey, "mutated")]
      = [{ Op := "replace",
           Path := "/metadata/annotations/io.ydzs.admission-validat/status",
           Value := .str "mutated" }] := by
    rw [mutateAnnotations_replace m.Annotations AnnotationStatusKey "mutated" hget]
    rfl
  refine ⟨hpatch, mutate_required L s a req m bytes hreq hobj hrequired ?_⟩
  rw [hpatch]
  exact hbytes

/-- Witness of C5, amended: a Deployment annotated `status = pending`. -/
theorem mutate_replace_patch_witness :
    mutationRequired
        (fixedLib {} {} (demoMeta (some [("io.ydzs.admission-validat/status", "pending")])))
        (demoMeta (some [("io.ydzs.admission-validat/status", "pending")])) = true
    ∧ mutateAnnotations
          (demoMeta (some [("io.ydzs.admission-validat/status", "pending")])).GetAnnotations
          [(AnnotationStatusKey, "mutated")]
        = [{ Op := "replace",
             Path := "/metadata/annotations/io.ydzs.admission-validat/status",
             Value := .str "mutated" }]
    ∧ mutate (fixedLib {} {} (demoMeta (some [("io.ydzs.admission-validat/status", "pending")])))
          demoServer (demoReview "Deployment")
        = .ok { Allowed := true, Result := none, Patch := some demoPatchBytes,
                PatchType := some .JSONPatch } :=
  ⟨by decide,
   mutate_replace_patch
      (fixedLib {} {} (demoMeta (some [("io.ydzs.admission-validat/status", "pending")])))
      demoServer (demoReview "Deployment") (demoRequest "Deployment")
      (demoMeta (some [("io.ydzs.admission-validat/status", "pending")]))
      demoPatchBytes rfl (Or.inl ⟨rfl, _, rfl, rfl⟩) (by decide)
      ⟨_, "pending", rfl, by decide, by decide⟩ rfl⟩

/-- C7: when the status annotation does not lower-case to `mutated`,
`mutationRequired` is false exactly when the lower-cased mutate annotation is
one of `n`, `no`, `false`, `off`, and it is true when the annotations map is
nil, the mutate key is absent or its value is empty; and a Service whose
mutate annotation is `off` gets `allowed = true` without a patch. -/
theorem mutationRequired_spec (L : Lib) (m : ObjectMeta) :
    (ToLower L (GoMap.get m.Annotations "io.ydzs.admission-validat/status") ≠ "mutated" →
      (mutationRequired L m = false ↔
          ToLower L (GoMap.get m.Annotations "io.ydzs.admission-validat/mutate")
            ∈ ["n", "no", "false", "off"])
        ∧ (ToLower L (GoMap.get m.Annotations "io.ydzs.admission-validat/mutate")
            ∉ ["n", "no", "false", "off"] → mutationRequired L m = true)
        ∧ ((m.Annotations = none ∨ ∃ e, m.Annotations = some e
            ∧ (e.lookup "io.ydzs.admission-validat/mutate" = none
              ∨ e.lookup "io.ydzs.admission-validat/mutate" = some "")) →
          mutationRequired L m = true))
    ∧ (∀ (s : WebHookServer) (a : AdmissionReview) (req : AdmissionRequest) (sv : Service),
        a.Request = some req → req.Kind = "Service" →
        L.unmarshalService req.Object.Raw = .ok sv → sv.ObjectMeta = m →
        GoMap.get m.Annotations "io.ydzs.admission-validat/mutate" = "off" →
        mutate L s a
          = .ok { Allowed := true, Result := none, Patch := none, PatchType := none }) := by
  have hkey : ("io.ydzs.admission-validat/mutate" : String) = AnnotationMutateKey := rfl
  have hskey : ("io.ydzs.admission-validat/status" : String) = AnnotationStatusKey := rfl
  rw [hkey, hskey]
  refine ⟨fun hstatus => ⟨?_, ?_, ?_⟩, ?_⟩
  · rw [mutationRequired_eq, if_neg hstatus]
    simp only [List.mem_cons, List.mem_singleton, List.not_mem_nil, or_false]
    by_cases h : ToLower L (GoMap.get m.Annotations AnnotationMutateKey) = "n"
        ∨ ToLower L (GoMap.get m.Annotations AnnotationMutateKey) = "no"
        ∨ ToLower L (GoMap.get m.Annotations AnnotationMutateKey) = "false"
        ∨ ToLower L (GoMap.get m.Annotations AnnotationMutateKey) = "off"
    · simp [h]
    · simp [h]
  · intro hv
    rw [mutationRequired_eq, if_neg hstatus]
    simp only [List.mem_cons, List.mem_singleton, List.not_mem_nil, or_false] at hv
    rw [if_neg hv]
  · intro habs
    have hget := get_eq_empty_of_absent m AnnotationMutateKey habs
    rw [mutationRequired_eq, if_neg hstatus, hget, ToLower_empty]
    decide
  · intro s a req sv hreq hkind hsv hm hoff
    have hobj : IsDeploymentOrService L req m := Or.inr ⟨hkind, sv, hsv, hm⟩
    refine mutate_not_required L s a req m hreq hobj ?_
    rw [mutationRequired_eq, hoff, ToLower_off]
    simp

/-- Witness of C7: a mutate annotation `OFF` switches mutation off, and a Service
annotated `mutate = off` is allowed without a patch. -/
theorem mutationRequired_spec_witness :
    mutationRequired (fixedLib {} {} {})
        (demoMeta (some [("io.ydzs.admission-validat/mutate", "OFF")])) = false
    ∧ mutationRequired (fixedLib {} {} {}) (demoMeta (some [("team", "a")])) = true
    ∧ mutate (fixedLib {} {} (demoMeta (some [("io.ydzs.admission-validat/mutate", "off")])))
          demoServer (demoReview "Service")
        = .ok { Allowed := true, Result := none, Patch := none, PatchType := none } :=
  ⟨((mutationRequired_spec (fixedLib {} {} {})
        (demoMeta (some [("io.ydzs.admission-validat/mutate", "OFF")]))).1
        (by decide)).1.mpr (by decide),
   ((mutationRequired_spec (fixedLib {} {} {}) (demoMeta (some [("team", "a")]))).1
        (by decide)).2.2 (Or.inr ⟨_, rfl, Or.inl (by decide)⟩),
   (mutationRequired_spec
        (fixedLib {} {} (demoMeta (some [("io.ydzs.admission-validat/mutate", "off")])))
        (demoMeta (some [("io.ydzs.admission-validat/mutate", "off")]))).2
      demoServer (demoReview "Service") (demoRequest "Service") _ rfl rfl rfl rfl
      (by decide)⟩

/-! ## Admission review engine: proofs -/

theorem validate_panics_without_request (L : Lib) (s : WebHookServer) (a : AdmissionReview)
    (hreq : a.Request = none) : validate L s a = .error .nilPointerDereference := by
  simp only [validate, hreq]

theorem mutate_panics_without_request (L : Lib) (s : WebHookServer) (a : AdmissionReview)
    (hreq : a.Request = none) : mutate L s a = .error .nilPointerDereference := by
  simp only [mutate, hreq]

theorem ServHandler_eq_dispatch (L : Lib) (s : WebHookServer) (request : HttpRequest)
    (body : Bytes) (hbody : request.Body = some (.ok body)) (hne : body ≠ [])
    (hct : request.ContentType = "application/json") :
    ServHandler L s request
      = match dispatch L s request.Path (L.decode body).1 (L.decode body).2 with
        | .error p => .error p
        | .ok admissionResponse =>
          .ok (encodeAndWrite L (assemble (L.decode body).1 admissionResponse)) := by
  have hlen : body.length ≠ 0 := by
    intro h
    exact hne (List.length_eq_zero.mp h)
  simp only [ServHandler, hbody, hct]
  rw [if_neg hlen]
  simp

/-- Called directly on a path that is neither route, with a body that decodes
without error, `ServHandler` writes an envelope without an embedded response. -/
theorem ServHandler_unrouted (L : Lib) (s : WebHookServer) (request : HttpRequest)
    (body : Bytes) (review : AdmissionReview)
    (hbody : request.Body = some (.ok body)) (hne : body ≠ [])
    (hct : request.ContentType = "application/json")
    (hdec : L.decode body = (review, none))
    (hm : request.Path ≠ "/mutate") (hv : request.Path ≠ "/validate") :
    ServHandler L s request
      = .ok (encodeAndWrite L
          { APIVersion := review.APIVersion, Kind := review.Kind, Request := none,
            Response := none }) := by
  rw [ServHandler_eq_dispatch L s request body hbody hne hct, hdec]
  simp [dispatch, hm, hv, assemble]

/-- The response written for `demoPodBad` on `/validate`: the denial, with the UID
of the request. -/
theorem serve_demoPodBad :
    serve (fixedLib (demoReview "Pod") demoPodBad {}) demoServer (demoHttp "/validate")
      = some (.ok (.written
          { APIVersion := "admission.k8s.io/v1", Kind := "AdmissionReview", Request := none,
            Response := some
              { UID := "uid-1", Allowed := false,
                Result := some
                  { Code := 403,
                    Message := "quay.io/tool:3 image comes from an untrusted validat! "
                      ++ "Only image from [docker.io/ gcr.io/] are allowed" } } }
          demoReviewBytes)) := by
  rfl

/-- C10, as the code behaves: for a request with a non-empty body and content
type `application/json` on `/validate` or `/mutate` whose body decodes without
error to an envelope that has no request object, the policy dereferences the
nil request and the handler panics before the assemble step. -/
theorem ServHandler_panics_without_request (L : Lib) (s : WebHookServer)
    (request : HttpRequest) (body : Bytes) (review : AdmissionReview)
    (hbody : request.Body = some (.ok body)) (hne : body ≠ [])
    (hct : request.ContentType = "application/json")
    (hdec : L.decode body = (review, none))
    (hreq : review.Request = none)
    (hroute : request.Path = "/validate" ∨ request.Path = "/mutate") :
    ServHandler L s request = .error .nilPointerDereference := by
  rw [ServHandler_eq_dispatch L s request body hbody hne hct, hdec]
  rcases hroute with h | h
  · simp [dispatch, h, validate_panics_without_request L s review hreq, Except.map]
  · simp [dispatch, h, mutate_panics_without_request L s review hreq, Except.map]

/-- Witness of C10: the envelope `demoReviewNoRequest` on both routes. -/
theorem ServHandler_panics_without_request_witness :
    ServHandler (fixedLib demoReviewNoRequest {} {}) demoServer (demoHttp "/validate")
        = .error .nilPointerDereference
    ∧ ServHandler (fixedLib demoReviewNoRequest {} {}) demoServer (demoHttp "/mutate")
        = .error .nilPointerDereference :=
  ⟨ServHandler_panics_without_request (fixedLib demoReviewNoRequest {} {}) demoServer
      (demoHttp "/validate") demoBody demoReviewNoRequest rfl (by decide) rfl rfl rfl
      (Or.inl rfl),
   ServHandler_panics_without_request (fixedLib demoReviewNoRequest {} {}) demoServer
      (demoHttp "/mutate") demoBody demoReviewNoRequest rfl (by decide) rfl rfl rfl
      (Or.inr rfl)⟩

/-! ## Admission configuration reconciler: proofs -/

theorem reconcile_shape (cli : Client) (kind : ConfigKind) (name : String)
    (desired : WebhookConfiguration) (t : Trace) :
    ∃ r g, reconcile cli kind name desired t = (r, t ++ g)
      ∧ ReconcileShape kind name desired r g := by
  unfold reconcile Client.call ReconcileShape
  cases hget : cli t (.get kind name) with
  | none =>
    simp only
    cases hup : cli (t ++ [(Call.get kind name, none)]) (.update kind desired) with
    | none => exact ⟨none, _, by simp, Or.inr (Or.inr rfl)⟩
    | some e2 => exact ⟨some e2, _, by simp, Or.inr (Or.inr rfl)⟩
  | some e =>
    simp only
    cases hnf : e.IsNotFound with
    | false => exact ⟨some e, [(.get kind name, some e)], by simp, Or.inr (Or.inl ⟨e, hnf, rfl, rfl⟩)⟩
    | true =>
      simp only [if_true]
      cases hcr : cli (t ++ [(Call.get kind name, some e)]) (.create kind desired) with
      | none => exact ⟨none, _, by simp, Or.inl ⟨e, hnf, rfl⟩⟩
      | some e2 => exact ⟨some e2, _, by simp, Or.inl ⟨e, hnf, rfl⟩⟩

theorem phase_shape (cli : Client) (kind : ConfigKind) (name : String)
    (desired : WebhookConfiguration) (t : Trace) :
    ∃ r g, (if name ≠ "" then reconcile cli kind name desired t else (none, t)) = (r, t ++ g)
      ∧ ((name = "" ∧ r = none ∧ g = [])
        ∨ (name ≠ "" ∧ ReconcileShape kind name desired r g)) := by
  by_cases h : name = ""
  · exact ⟨none, [], by simp [h], Or.inl ⟨h, rfl, rfl⟩⟩
  · obtain ⟨r, g, hr, hs⟩ := reconcile_shape cli kind name desired t
    exact ⟨r, g, by simp [h, hr], Or.inr ⟨h, hs⟩⟩

theorem answered_nil (cli : Client) : Answered cli [] := by
  intro pre c r post h
  cases pre <;> cases h

theorem answered_call (cli : Client) (t : Trace) (c : Call) (h : Answered cli t) :
    Answered cli (cli.call t c).2 := by
  intro pre c1 r1 post heq
  simp only [Client.call] at heq
  rcases List.eq_nil_or_concat post with hp | ⟨post1, x, hp⟩
  · subst hp
    have h2 : t ++ [(c, cli t c)] = pre ++ [(c1, r1)] := heq
    obtain ⟨h3, h4⟩ := List.append_inj' h2 rfl
    simp only [List.cons.injEq, Prod.mk.injEq, and_true] at h4
    obtain ⟨rfl, rfl⟩ := h4
    rw [h3]
  · subst hp
    have h2 : t ++ [(c, cli t c)] = (pre ++ (c1, r1) :: post1) ++ [x] := by
      rw [heq]; simp
    obtain ⟨h3, -⟩ := List.append_inj' h2 rfl
    exact h pre c1 r1 post1 h3

theorem reconcile_answered (cli : Client) (kind : ConfigKind) (name : String)
    (desired : WebhookConfiguration) (t : Trace) (h : Answered cli t) :
    Answered cli (reconcile cli kind name desired t).2 := by
  have h1 := answered_call cli t (.get kind name) h
  have hc := answered_call cli _ (.create kind desired) h1
  have hu := answered_call cli _ (.update kind desired) h1
  unfold reconcile
  simp only [Client.call] at h1 hc hu ⊢
  cases hget : cli t (.get kind name) with
  | none =>
    simp only [hget] at hu ⊢
    cases hup : cli (t ++ [(Call.get kind name, none)]) (.update kind desired) <;>
      simpa [hup] using hu
  | some e =>
    simp only [hget] at h1 hc ⊢
    cases hnf : e.IsNotFound with
    | false => simpa using h1
    | true =>
      simp only [if_true]
      cases hcr : cli (t ++ [(Call.get kind name, some e)]) (.create kind desired) <;>
        simpa [hcr] using hc

theorem CreateAdminssionConfig_answered (cli : Client) (env : Environ) (caCert : Bytes) :
    Answered cli (CreateAdminssionConfig (.ok cli) env caCert).2 := by
  have a1 : Answered cli
      (if env.VALIDATE_CONFIG ≠ "" then
        reconcile cli .validating env.VALIDATE_CONFIG (validateConfig env caCert) []
       else (none, [])).2 := by
    split
    · exact reconcile_answered cli _ _ _ _ (answered_nil cli)
    · exact answered_nil cli
  simp only [CreateAdminssionConfig]
  generalize (if env.VALIDATE_CONFIG ≠ "" then
        reconcile cli .validating env.VALIDATE_CONFIG (validateConfig env caCert) []
       else (none, [])) = p1 at a1
  obtain ⟨r1, t1⟩ := p1
  cases r1 with
  | some e => exact a1
  | none =>
    have a2 : Answered cli
        (if env.MUTATE_CONFIG ≠ "" then
          reconcile cli .mutating env.MUTATE_CONFIG (mutateConfig env caCert) t1
         else (none, t1)).2 := by
      split
      · exact reconcile_answered cli _ _ _ _ a1
      · exact a1
    simp only
    generalize (if env.MUTATE_CONFIG ≠ "" then
          reconcile cli .mutating env.MUTATE_CONFIG (mutateConfig env caCert) t1
         else (none, t1)) = p2 at a2
    obtain ⟨r2, t2⟩ := p2
    cases r2 <;> exact a2

theorem shape_head (kind : ConfigKind) (name : String) (desired : WebhookConfiguration)
    (r : Option GoError) (g : Trace) (h : ReconcileShape kind name desired r g) :
    ∃ r0 rest, g = (Call.get kind name, r0) :: rest := by
  rcases h with ⟨e, -, rfl⟩ | ⟨e, -, -, rfl⟩ | rfl
  · exact ⟨_, _, rfl⟩
  · exact ⟨_, _, rfl⟩
  · exact ⟨_, _, rfl⟩

theorem shape_failed (kind : ConfigKind) (name : String) (desired : WebhookConfiguration)
    (e1 : GoError) (g : Trace) (h : ReconcileShape kind name desired (some e1) g) :
    ∃ c e, (c, some e) ∈ g ∧ c.kind = kind
      ∧ (c.isWrite = true ∨ e.IsNotFound = false) ∧ some e1 = some e := by
  rcases h with ⟨e, -, rfl⟩ | ⟨e, hnf, hr, rfl⟩ | rfl
  · exact ⟨.create kind desired, e1, by simp, rfl, Or.inl rfl, rfl⟩
  · exact ⟨.get kind name, e, by simp, rfl, Or.inr hnf, hr⟩
  · exact ⟨.update kind desired, e1, by simp, rfl, Or.inl rfl, rfl⟩

theorem CreateAdminssionConfig_core (cli : Client) (env : Environ) (caCert : Bytes)
    (k : ConfigKind) (res : Option GoError) (t : Trace)
    (hrun : CreateAdminssionConfig (.ok cli) env caCert = (res, t)) :
    (configName env k ≠ "" →
      (∀ e, (Call.get k (configName env k), some e) ∈ t → e.IsNotFound = true →
          writesOf t k = [.create k (desiredConfig env caCert k)])
        ∧ ((Call.get k (configName env k), none) ∈ t →
          writesOf t k = [.update k (desiredConfig env caCert k)])
        ∧ (∀ e, (Call.get k (configName env k), some e) ∈ t → e.IsNotFound = false →
          res = some e ∧ writesOf t k = [])
        ∧ (callsOf t k = []
          ∨ callsOf t k = Call.get k (configName env k) :: writesOf t k))
    ∧ (configName env k = "" → callsOf t k = []) := by
  obtain ⟨r1, g1, h1, s1⟩ :=
    phase_shape cli .validating env.VALIDATE_CONFIG (validateConfig env caCert) []
  obtain ⟨r2, g2, h2, s2⟩ :=
    phase_shape cli .mutating env.MUTATE_CONFIG (mutateConfig env caCert) ([] ++ g1)
  simp only [CreateAdminssionConfig, h1] at hrun
  cases r1 with
  | some e1 =>
    simp only [Prod.mk.injEq] at hrun
    obtain ⟨rfl, rfl⟩ := hrun
    rcases s1 with ⟨hn, hr, rfl⟩ | ⟨hn, ⟨e, hnf, rfl⟩ | ⟨e, hnf, hr, rfl⟩ | rfl⟩
    · cases hr
    all_goals
      cases k <;>
        simp_all [configName, desiredConfig, writesOf, callsOf, Call.kind, Call.isWrite]
  | none =>
    simp only [h2] at hrun
    have hrun2 : (r2, [] ++ g1 ++ g2) = (res, t) := by
      cases r2 <;> exact hrun
    simp only [Prod.mk.injEq] at hrun2
    obtain ⟨rfl, rfl⟩ := hrun2
    rcases s1 with ⟨hn, -, rfl⟩ | ⟨hn, ⟨e, hnf, rfl⟩ | ⟨e, hnf, hr, rfl⟩ | rfl⟩ <;>
      rcases s2 with ⟨hn2, hr2, rfl⟩ | ⟨hn2, ⟨e2, hnf2, rfl⟩ | ⟨e2, hnf2, hr2, rfl⟩ | rfl⟩ <;>
      cases k <;>
        simp_all [configName, desiredConfig, writesOf, callsOf, Call.kind, Call.isWrite]

theorem CreateAdminssionConfig_get_made (cli : Client) (env : Environ) (caCert : Bytes)
    (k : ConfigKind) (res : Option GoError) (t : Trace)
    (hrun : CreateAdminssionConfig (.ok cli) env caCert = (res, t))
    (hname : configName env k ≠ "") :
    (∃ r, (Call.get k (configName env k), r) ∈ t)
      ∨ (k = .mutating ∧ ∃ c e, (c, some e) ∈ t ∧ c.kind = .validating
          ∧ (c.isWrite = true ∨ e.IsNotFound = false) ∧ res = some e) := by
  obtain ⟨r1, g1, h1, s1⟩ :=
    phase_shape cli .validating env.VALIDATE_CONFIG (validateConfig env caCert) []
  obtain ⟨r2, g2, h2, s2⟩ :=
    phase_shape cli .mutating env.MUTATE_CONFIG (mutateConfig env caCert) ([] ++ g1)
  simp only [CreateAdminssionConfig, h1] at hrun
  cases r1 with
  | some e1 =>
    simp only [Prod.mk.injEq] at hrun
    obtain ⟨rfl, rfl⟩ := hrun
    rcases s1 with ⟨-, hr, -⟩ | ⟨-, s1⟩
    · cases hr
    · cases k with
      | validating =>
        obtain ⟨r0, rest, rfl⟩ := shape_head _ _ _ _ _ s1
        exact Or.inl ⟨r0, by simp [configName]⟩
      | mutating =>
        obtain ⟨c, e, hmem, hk, hw, he⟩ := shape_failed _ _ _ _ _ s1
        exact Or.inr ⟨rfl, c, e, by simpa using hmem, hk, hw, he⟩
  | none =>
    simp only [h2] at hrun
    have hrun2 : (r2, [] ++ g1 ++ g2) = (res, t) := by
      cases r2 <;> exact hrun
    simp only [Prod.mk.injEq] at hrun2
    obtain ⟨rfl, rfl⟩ := hrun2
    cases k with
    | validating =>
      rcases s1 with ⟨hn, -, -⟩ | ⟨-, s1⟩
      · exact absurd hn hname
      · obtain ⟨r0, rest, rfl⟩ := shape_head _ _ _ _ _ s1
        exact Or.inl ⟨r0, by simp [configName]⟩
    | mutating =>
      rcases s2 with ⟨hn, -, -⟩ | ⟨-, s2⟩
      · exact absurd hn hname
      · obtain ⟨r0, rest, rfl⟩ := shape_head _ _ _ _ _ s2
        exact Or.inl ⟨r0, by simp [configName]⟩

/-- C9: for either registration kind `k`, on the trace `t` of client calls made by
`CreateAdminssionConfig` and its returned error `res`. With a non-empty name:
a get answered not-found is followed by exactly one create, of the desired
object, and no update; a get answered without error is followed by exactly
one update, of the desired object, and no create; a get answered with any
other error makes that error the result, with no create and no update; the
get is made, unless the kind is the mutating one and the run ended with the
error of a validating call (a create or update that failed, or a get that
failed otherwise than not-found); and the calls of kind `k` are that get
followed by the writes. With an empty name the trace has no call of kind
`k`. Every answer in the trace is the answer of the client. -/
theorem CreateAdminssionConfig_calls (cli : Client) (env : Environ) (caCert : Bytes)
    (k : ConfigKind) (res : Option GoError) (t : Trace)
    (hrun : CreateAdminssionConfig (.ok cli) env caCert = (res, t)) :
    (configName env k ≠ "" →
      (∀ e, (Call.get k (configName env k), some e) ∈ t → e.IsNotFound = true →
          writesOf t k = [.create k (desiredConfig env caCert k)])
        ∧ ((Call.get k (configName env k), none) ∈ t →
          writesOf t k = [.update k (desiredConfig env caCert k)])
        ∧ (∀ e, (Call.get k (configName env k), some e) ∈ t → e.IsNotFound = false →
          res = some e ∧ writesOf t k = [])
        ∧ ((∃ r, (Call.get k (configName env k), r) ∈ t)
          ∨ (k = .mutating ∧ ∃ c e, (c, some e) ∈ t ∧ c.kind = .validating
              ∧ (c.isWrite = true ∨ e.IsNotFound = false) ∧ res = some e))
        ∧ (callsOf t k = []
          ∨ callsOf t k = Call.get k (configName env k) :: writesOf t k))
    ∧ (configName env k = "" → callsOf t k = [])
    ∧ (∀ pre c r post, t = pre ++ (c, r) :: post → r = cli pre c) := by
  have hcore := CreateAdminssionConfig_core cli env caCert k res t hrun
  refine ⟨fun hname => ?_, hcore.2, ?_⟩
  · obtain ⟨h1, h2, h3, h4⟩ := hcore.1 hname
    exact ⟨h1, h2, h3,
      CreateAdminssionConfig_get_made cli env caCert k res t hrun hname, h4⟩
  · have h := CreateAdminssionConfig_answered cli env caCert
    rw [hrun] at h
    exact h

/-- Witness of C9: both registrations absent (a create for each), both present
(an update for each), and a get that fails with another error (returned,
nothing written). -/
theorem CreateAdminssionConfig_calls_witness :
    (CreateAdminssionConfig (.ok clientAbsent) demoEnviron demoCA = (none, demoTraceAbsent)
      ∧ writesOf demoTraceAbsent .validating
        = [.create .validating (validateConfig demoEnviron demoCA)])
    ∧ (CreateAdminssionConfig (.ok clientPresent) demoEnviron demoCA
        = (none, demoTracePresent)
      ∧ writesOf demoTracePresent .mutating
        = [.update .mutating (mutateConfig demoEnviron demoCA)])
    ∧ (CreateAdminssionConfig (.ok clientForbidden) demoEnviron demoCA
        = (some demoForbidden, demoTraceForbidden)
      ∧ some demoForbidden = some demoForbidden
      ∧ writesOf demoTraceForbidden .validating = []) :=
  ⟨⟨rfl, ((CreateAdminssionConfig_calls clientAbsent demoEnviron demoCA .validating none
        demoTraceAbsent rfl).1 (by decide)).1 demoNotFound (by decide) rfl⟩,
   ⟨rfl, ((CreateAdminssionConfig_calls clientPresent demoEnviron demoCA .mutating none
        demoTracePresent rfl).1 (by decide)).2.1 (by decide)⟩,
   ⟨rfl, ((CreateAdminssionConfig_calls clientForbidden demoEnviron demoCA .validating
        (some demoForbidden) demoTraceForbidden rfl).1 (by decide)).2.2.1 demoForbidden
        (by decide) rfl⟩⟩

/-! ## Patches against the object document: proofs -/

theorem lookup_mapJson (a : GoMap) (key : String) :
    (a.map (fun kv => (kv.1, Json.str kv.2))).lookup key = none
      ∨ ∃ v, (a.map (fun kv => (kv.1, Json.str kv.2))).lookup key = some (.str v) := by
  induction a with
  | nil => exact Or.inl rfl
  | cons kv rest ih =>
    simp only [List.map_cons, List.lookup_cons]
    cases key == kv.1 with
    | true => exact Or.inr ⟨kv.2, rfl⟩
    | false => exact ih

theorem lookup_setMember (members : List (String × Json)) (key : String) (v : Json) :
    (setMember members key v).lookup key = some v := by
  induction members with
  | nil => simp [setMember, List.lookup]
  | cons kv rest ih =>
    obtain ⟨k1, v1⟩ := kv
    by_cases h : k1 = key
    · simp [setMember, h, List.lookup]
    · have h1 : (key == k1) = false := by
        simpa using fun h2 => h h2.symm
      simp [setMember, h, List.lookup, h1, ih]

theorem lookup_annotations_metadata (m : ObjectMeta) (a : GoMap)
    (h : m.Annotations = some a) :
    ∃ members, metadataJson m = .obj members
      ∧ members.lookup "annotations" = some (mapJson a) := by
  refine ⟨_, rfl, ?_⟩
  rw [h]
  by_cases h1 : m.Name = "" <;> by_cases h2 : m.Namespace = "" <;>
    simp [h1, h2, List.lookup]

theorem replaceAt_obj_absent (t : String) (ts : List String) (v : Json)
    (members : List (String × Json)) (h : members.lookup t = none) :
    Json.replaceAt (t :: ts) v (.obj members) = none := by
  simp only [Json.replaceAt, h]

theorem replaceAt_obj_none (t : String) (ts : List String) (v : Json)
    (members : List (String × Json)) (child : Json) (h : members.lookup t = some child)
    (hc : Json.replaceAt ts v child = none) :
    Json.replaceAt (t :: ts) v (.obj members) = none := by
  simp only [Json.replaceAt, h, hc]

theorem replaceAt_str (t : String) (ts : List String) (v : Json) (s : String) :
    Json.replaceAt (t :: ts) v (.str s) = none := by
  simp only [Json.replaceAt]

/-- The replace operation that `mutateAnnotations` emits fails on every object
document of the form `objectJson kind m`: the pointer is read as the tokens
`metadata`, `annotations`, `io.ydzs.admission-validat`, `status`, and a value
of the annotations object is a string, not an object with a member `status`. -/
theorem replace_patch_fails (kind : String) (m : ObjectMeta) (a : GoMap)
    (h : m.Annotations = some a) :
    applyPatch
        [{ Op := "replace", Path := "/metadata/annotations/io.ydzs.admission-validat/status",
           Value := .str "mutated" }]
        (objectJson kind m) = none := by
  have hp : parsePointer "/metadata/annotations/io.ydzs.admission-validat/status"
      = some ["metadata", "annotations", "io.ydzs.admission-validat", "status"] := by
    decide
  obtain ⟨members, hm, hl⟩ := lookup_annotations_metadata m a h
  have hinner : Json.replaceAt ["io.ydzs.admission-validat", "status"] (.str "mutated")
      (mapJson a) = none := by
    unfold mapJson
    rcases lookup_mapJson a "io.ydzs.admission-validat" with h0 | ⟨v, h0⟩
    · exact replaceAt_obj_absent _ _ _ _ h0
    · exact replaceAt_obj_none _ _ _ _ _ h0 (replaceAt_str _ _ _ _)
  have hmeta : Json.replaceAt ["annotations", "io.ydzs.admission-validat", "status"]
      (.str "mutated") (metadataJson m) = none := by
    rw [hm]
    exact replaceAt_obj_none _ _ _ _ _ hl hinner
  have hdoc : Json.replaceAt
      ["metadata", "annotations", "io.ydzs.admission-validat", "status"]
      (.str "mutated") (objectJson kind m) = none := by
    unfold objectJson
    exact replaceAt_obj_none _ _ _ _ (metadataJson m) (by simp [List.lookup]) hmeta
  simp [applyPatch, applyOperation, hp, PatchValue.toJson, hdoc]

/-- The add operation that `mutateAnnotations` emits applies to every object
document of the form `objectJson kind m` and leaves the status annotation
`mutated`. -/
theorem add_patch_applies (kind : String) (m : ObjectMeta) :
    ∃ doc, applyPatch
        [{ Op := "add", Path := "/metadata/annotations",
           Value := .map [("io.ydzs.admission-validat/status", "mutated")] }]
        (objectJson kind m) = some doc
      ∧ statusOf doc = some (.str "mutated") := by
  have hp : parsePointer "/metadata/annotations" = some ["metadata", "annotations"] := by
    decide
  have hk : (AnnotationStatusKey == "io.ydzs.admission-validat/status") = true := by decide
  cases hmj : metadataJson m with
  | obj members =>
    refine ⟨.obj (setMember [("kind", .str kind), ("metadata", .obj members)] "metadata"
      (.obj (setMember members "annotations"
        (mapJson [("io.ydzs.admission-validat/status", "mutated")])))), ?_, ?_⟩
    · simp [applyPatch, applyOperation, hp, objectJson, hmj, Json.addAt, List.lookup,
        PatchValue.toJson]
    · simp [statusOf, Json.getPath, setMember, List.lookup, lookup_setMember,
        mapJson, hk]
  | null => simp [metadataJson] at hmj
  | bool b => simp [metadataJson] at hmj
  | num n => simp [metadataJson] at hmj
  | str s => simp [metadataJson] at hmj
  | arr items => simp [metadataJson] at hmj

/-- C6, at the failing input: a Deployment annotated `status = pending` needs
mutation, the patch is the replace operation and `mutate` returns it, its path
parses to four reference tokens, the document does carry the status annotation, and applying
the patch to the document fails; with the key written `~1`-escaped the same
operation succeeds. -/
theorem replace_patch_fails_on_pending :
    mutationRequired (fixedLib {} {} {})
        (demoMeta (some [("io.ydzs.admission-validat/status", "pending")])) = true
    ∧ mutateAnnotations
          (demoMeta (some [("io.ydzs.admission-validat/status", "pending")])).GetAnnotations
          [(AnnotationStatusKey, "mutated")]
        = [{ Op := "replace",
             Path := "/metadata/annotations/io.ydzs.admission-validat/status",
             Value := .str "mutated" }]
    ∧ mutate (fixedLib {} {} (demoMeta (some [("io.ydzs.admission-validat/status", "pending")])))
          demoServer (demoReview "Deployment")
        = .ok { Allowed := true, Result := none, Patch := some demoPatchBytes,
                PatchType := some .JSONPatch }
    ∧ parsePointer "/metadata/annotations/io.ydzs.admission-validat/status"
        = some ["metadata", "annotations", "io.ydzs.admission-validat", "status"]
    ∧ (statusOf (objectJson "Deployment"
          (demoMeta (some [("io.ydzs.admission-validat/status", "pending")])))).isSome = true
    ∧ (applyPatch
          [{ Op := "replace",
             Path := "/metadata/annotations/io.ydzs.admission-validat/status",
             Value := .str "mutated" }]
          (objectJson "Deployment"
            (demoMeta (some [("io.ydzs.admission-validat/status", "pending")])))).isNone = true
    ∧ ((applyPatch
          [{ Op := "replace",
             Path := "/metadata/annotations/io.ydzs.admission-validat~1status",
             Value := .str "mutated" }]
          (objectJson "Deployment"
            (demoMeta (some [("io.ydzs.admission-validat/status", "pending")])))).bind
        statusOf).isSome = true := by
  refine ⟨by decide, by decide, rfl, by decide, by decide, by decide, by decide⟩

end Webhook
